import Mathlib

/-!
Verification development for the Gantt mini-app (`gantt_app/app.py`):
a shallow embedding of its date arithmetic, timeline builder, overlap
query, layout clamping, grouping and assignment creation, together with
theorems about the spec-level properties of those operations.

Calendar dates are embedded as proleptic-Gregorian ordinals (`Int`),
matching Python's `datetime.date.toordinal` (day 1 = 0001-01-01, a
Monday), so that `timedelta` arithmetic is integer arithmetic and
`d.weekday()` is `(d - 1) % 7` with Monday = 0.
-/

namespace GanttApp

/-- Gregorian leap-year test, as in Python's `calendar.isleap`. -/
def isLeap (y : Nat) : Bool :=
  y % 4 == 0 && (y % 100 != 0 || y % 400 == 0)

/-- Number of days in month `m` of year `y`. -/
def daysInMonth (y m : Nat) : Nat :=
  if m = 2 then (if isLeap y then 29 else 28)
  else if m = 4 ∨ m = 6 ∨ m = 9 ∨ m = 11 then 30
  else 31

/-- Days in year `y` strictly before month `m`. -/
def daysBeforeMonth (y m : Nat) : Nat :=
  ((List.range (m - 1)).map (fun i => daysInMonth y (i + 1))).sum

/-- Proleptic-Gregorian ordinal of the date `y-m-d`, as
`datetime.date(y, m, d).toordinal()` computes it. -/
def toOrdinal (y m d : Nat) : Int :=
  (365 * (y - 1) + (y - 1) / 4 - (y - 1) / 100 + (y - 1) / 400
    + daysBeforeMonth y m + d : Int)

/-- `date.weekday()`: Monday = 0 .. Sunday = 6.  Ordinal 1 is a Monday. -/
def weekday (d : Int) : Int :=
  (d - 1) % 7

/-- `monday_of(d) = d - timedelta(days=d.weekday())`. -/
def monday_of (d : Int) : Int :=
  d - weekday d

/-- `Timeline` dataclass: window start, window end, ordered day list.
The Python field `end` is a Lean keyword, hence `end_`. -/
structure Timeline where
  start : Int
  end_ : Int
  days : List Int
deriving DecidableEq

/-- An uncaught Python exception surfaced by the embedded code.
`indexError` models `days[-1]` applied to an empty list. -/
inductive PyError where
  | indexError
deriving DecidableEq

instance {ε α : Type} [DecidableEq ε] [DecidableEq α] : DecidableEq (Except ε α) := by
  intro a b
  cases a <;> cases b
  case error.error e f => exact decidable_of_iff (e = f) (by simp)
  case ok.ok x y => exact decidable_of_iff (x = y) (by simp)
  all_goals exact isFalse (by intro h; cases h)

/-- `build_timeline(start=None, weeks=4)`: align to Monday, lay out
`weeks*7` consecutive days and take `days[-1]` as the window end.
When `weeks <= 0` the day list is empty and `days[-1]` raises
`IndexError`, modelled as `Except.error .indexError`.  The Python
default `start or date.today()` is the explicit `today` argument. -/
def build_timeline (startOpt : Option Int) (today : Int) (weeks : Int) :
    Except PyError Timeline :=
  let start := monday_of (startOpt.getD today)
  let total_days := weeks * 7
  let days := (List.range total_days.toNat).map (fun i : Nat => start + (i : Int))
  match days.getLast? with
  | none => .error .indexError
  | some e => .ok { start := start, end_ := e, days := days }

/-- `overlap(a1, a2, b1, b2)`: closed-interval overlap test. -/
def overlap (a1 a2 b1 b2 : Int) : Bool :=
  !(decide (a2 < b1) || decide (b2 < a1))

/-- `Staff` model row: primary key, unique name, optional CSS color. -/
structure Staff where
  id : Nat
  name : String
  color : Option String
deriving DecidableEq

/-- `Assign` model row.  The `created_at` wall-clock column is not
modelled: no query, view or claim reads it. -/
structure Assign where
  id : Nat
  title : String
  staff_id : Nat
  start_date : Int
  end_date : Int
  memo : Option String
deriving DecidableEq

/-- `SEED_STAFF` rows as inserted by `ensure_db_seed` (autoincrement
primary keys 1..9 in insertion order). -/
def seededStaff : List Staff :=
  [⟨1, "WXP", some "#8ecae6"⟩, ⟨2, "LJH", some "#90be6d"⟩,
   ⟨3, "TLF", some "#f9c74f"⟩, ⟨4, "LXY", some "#f8961e"⟩,
   ⟨5, "MAMA", some "#f28482"⟩, ⟨6, "BABA", some "#b388eb"⟩,
   ⟨7, "RCD", some "#f72585"⟩, ⟨8, "SCL", some "#4cc9f0"⟩,
   ⟨9, "JSP", some "#43aa8b"⟩]

/-- Database state: the `staff` and `assign` tables plus the next
autoincrement id for `assign`. -/
structure DBState where
  staff : List Staff
  assigns : List Assign
  next_assign_id : Nat
deriving DecidableEq

/-- `ensure_db_seed()`: create tables and, when the staff table is
empty, insert the seed staff.  Never touches the assign table. -/
def ensure_db_seed (db : DBState) : DBState :=
  if db.staff = [] then { db with staff := seededStaff } else db

/-- The transient per-item dict built by the `gantt` view:
`{'title', 'start_date', 'end_date', 'memo'}` with dates clamped to the
window and `memo or ''`. -/
structure RenderedAssign where
  title : String
  start_date : Int
  end_date : Int
  memo : String
deriving DecidableEq

/-- Clamp one assignment to the window for rendering (the dict literal
in the `gantt` view): `max(it.start_date, tl.start)` and
`min(it.end_date, tl.end)`. -/
def clampView (tl : Timeline) (it : Assign) : RenderedAssign :=
  { title := it.title
    start_date := max it.start_date tl.start
    end_date := min it.end_date tl.end_
    memo := it.memo.getD "" }

/-- The SQL filter `Assign.end_date >= tl.start, Assign.start_date <= tl.end`. -/
def assignFilter (tl : Timeline) (a : Assign) : Bool :=
  decide (tl.start ≤ a.end_date) && decide (a.start_date ≤ tl.end_)

/-- The SQL ordering `order_by(start_date.asc(), id.asc())` as a total
preorder on rows. -/
def assignLe (a b : Assign) : Prop :=
  a.start_date < b.start_date ∨ (a.start_date = b.start_date ∧ a.id ≤ b.id)

instance : DecidableRel assignLe := by
  intro a b
  unfold assignLe
  infer_instance

instance : IsTotal Assign assignLe := by
  constructor
  intro a b
  unfold assignLe
  omega

instance : IsTrans Assign assignLe := by
  constructor
  intro a b c
  unfold assignLe
  omega

/-- The overlap query of the `gantt` view: filter the assign table to
rows overlapping the window, ordered by `(start_date, id)` ascending. -/
def queryAssigns (tl : Timeline) (assigns : List Assign) : List Assign :=
  List.insertionSort assignLe (assigns.filter (assignFilter tl))

/-- `Staff.query.order_by(Staff.name.asc())`. -/
def staffLe (s t : Staff) : Prop :=
  s.name ≤ t.name

instance : DecidableRel staffLe := by
  intro s t
  unfold staffLe
  infer_instance

instance : IsTotal Staff staffLe := by
  constructor
  intro s t
  exact le_total s.name t.name

instance : IsTrans Staff staffLe := by
  constructor
  intro a b c hab hbc
  exact le_trans hab hbc

/-- `grouped = {s.id: [] for s in staff_list}` as an association list
in roster order. -/
def groupedInit (staff_list : List Staff) : List (Nat × List RenderedAssign) :=
  staff_list.map (fun s => (s.id, []))

/-- Python's `it.staff_id in grouped`. -/
def hasKey (g : List (Nat × List RenderedAssign)) (k : Nat) : Bool :=
  g.any (fun p => p.1 == k)

/-- `grouped[k].append(v)`. -/
def appendAt (g : List (Nat × List RenderedAssign)) (k : Nat)
    (v : RenderedAssign) : List (Nat × List RenderedAssign) :=
  g.map (fun p => if p.1 = k then (p.1, p.2 ++ [v]) else p)

/-- The bucketing loop of the `gantt` view: for each queried item, if
its staff id is a key of `grouped`, append the clamped view to that
staff's bucket; otherwise drop the item silently. -/
def bucketize (tl : Timeline) (g : List (Nat × List RenderedAssign))
    (items : List Assign) : List (Nat × List RenderedAssign) :=
  items.foldl
    (fun g it =>
      if hasKey g it.staff_id then appendAt g it.staff_id (clampView tl it) else g)
    g

/-- Python dict read `grouped.get(k)` (`some bucket` when `k` is a key). -/
def lookupG (g : List (Nat × List RenderedAssign)) (k : Nat) :
    Option (List RenderedAssign) :=
  (g.find? (fun p => p.1 == k)).map Prod.snd

/-- The context handed to the GANTT template. -/
structure GanttView where
  tl : Timeline
  staff_list : List Staff
  grouped : List (Nat × List RenderedAssign)
  weeks : Int
deriving DecidableEq

/-- The `/gantt` route: seed, build the window, query the staff roster
and overlapping assignments, bucket clamped views by staff.  Returns
the resulting database state together with the template context;
`qs_start` is the parsed `start` query parameter. -/
def gantt (db : DBState) (qs_start : Option Int) (weeks : Int) (today : Int) :
    Except PyError (DBState × GanttView) :=
  let db := ensure_db_seed db
  let start := qs_start.getD (monday_of today)
  match build_timeline (some start) today weeks with
  | .error e => .error e
  | .ok tl =>
    let staff_list := List.insertionSort staffLe db.staff
    let items := queryAssigns tl db.assigns
    let grouped := bucketize tl (groupedInit staff_list) items
    .ok (db, { tl := tl, staff_list := staff_list, grouped := grouped, weeks := weeks })

/-- The per-bar arithmetic of the GANTT template (`{% set start = ... %}`
etc.): 1-indexed column from the window start, span from the rendered
dates, column clamped into `[1, ndays]`, then span clamped to `maxspan`. -/
def barOf (ndays : Int) (tlStart : Int) (it : RenderedAssign) : Int × Int :=
  let start := (it.start_date - tlStart) + 1
  let span := (it.end_date - it.start_date) + 1
  let start := if start < 1 then 1 else start
  let start := if start > ndays then ndays else start
  let maxspan := ndays - start + 1
  let span := if span > maxspan then maxspan else span
  (start, span)

/-- The POST branch of `/assign/new`: seed, parse the form, swap the
two dates when `end < start`, insert the new row. -/
def new_assign (db : DBState) (title : String) (staff_id : Nat)
    (start end_ : Int) (memo : String) : DBState :=
  let db := ensure_db_seed db
  let p := if end_ < start then (end_, start) else (start, end_)
  { db with
    assigns := db.assigns ++
      [{ id := db.next_assign_id, title := title, staff_id := staff_id,
         start_date := p.1, end_date := p.2, memo := some memo }]
    next_assign_id := db.next_assign_id + 1 }

/-! ### Concrete fixtures used to instantiate the theorems -/

/-- 2024-01-01, a Monday. -/
def sampleDay : Int := toOrdinal 2024 1 1

/-- The one-week window starting at `sampleDay`. -/
def sampleTimeline : Timeline :=
  { start := sampleDay, end_ := sampleDay + 6,
    days := (List.range 7).map (fun i : Nat => sampleDay + (i : Int)) }

def sampleStaffA : Staff := { id := 1, name := "A", color := none }

/-- Overlaps `sampleTimeline` and runs past its end. -/
def sampleAssign : Assign :=
  { id := 1, title := "T", staff_id := 1, start_date := sampleDay + 2,
    end_date := sampleDay + 9, memo := none }

/-- Same start date as `sampleAssign`, larger id. -/
def sampleAssignTie : Assign :=
  { id := 2, title := "U", staff_id := 1, start_date := sampleDay + 2,
    end_date := sampleDay + 3, memo := none }

/-- Single-day assignment on the window's first day. -/
def sampleAssignEarly : Assign :=
  { id := 3, title := "V", staff_id := 1, start_date := sampleDay,
    end_date := sampleDay, memo := none }

/-- Its staff id 5 matches no roster entry. -/
def sampleUnrostered : Assign :=
  { id := 9, title := "X", staff_id := 5, start_date := sampleDay + 1,
    end_date := sampleDay + 2, memo := none }

/-- One rostered staff member, no assignments. -/
def sampleDB : DBState :=
  { staff := [sampleStaffA], assigns := [], next_assign_id := 1 }

/-- The view `gantt sampleDB none 1 sampleDay` produces. -/
def sampleView : GanttView :=
  { tl := sampleTimeline, staff_list := [sampleStaffA],
    grouped := [(1, [])], weeks := 1 }

/-! ### Helper lemmas: dates and timeline shape -/

lemma weekday_nonneg (d : Int) : 0 ≤ weekday d := by
  unfold weekday
  omega

lemma weekday_lt_seven (d : Int) : weekday d < 7 := by
  unfold weekday
  omega

lemma monday_of_le (d : Int) : monday_of d ≤ d := by
  have := weekday_nonneg d
  unfold monday_of
  omega

lemma weekday_monday_of (d : Int) : weekday (monday_of d) = 0 := by
  unfold monday_of weekday
  omega

lemma getLast?_range_map {α : Type} (f : Nat → α) {n : Nat} (hn : 0 < n) :
    ((List.range n).map f).getLast? = some (f (n - 1)) := by
  obtain ⟨m, rfl⟩ : ∃ m, n = m + 1 := ⟨n - 1, by omega⟩
  rw [List.range_succ, List.map_append, List.map_singleton, List.getLast?_concat]
  simp

/-- For a positive week count, `build_timeline` succeeds and its result
has the evident closed form. -/
lemma build_timeline_eq (startOpt : Option Int) (today : Int) {W : Int}
    (hW : 0 < W) :
    build_timeline startOpt today W =
      .ok { start := monday_of (startOpt.getD today)
            end_ := monday_of (startOpt.getD today) + (7 * W - 1)
            days := (List.range (W * 7).toNat).map
              (fun i : Nat => monday_of (startOpt.getD today) + (i : Int)) } := by
  unfold build_timeline
  dsimp only
  rw [getLast?_range_map _ (by omega)]
  simp only [Except.ok.injEq, Timeline.mk.injEq, true_and, and_true]
  omega

lemma timeline_facts {startOpt : Option Int} {today : Int} {W : Int}
    {tl : Timeline} (hW : 0 < W)
    (h : build_timeline startOpt today W = .ok tl) :
    tl.start = monday_of (startOpt.getD today) ∧
      tl.end_ = tl.start + (7 * W - 1) ∧ (tl.days.length : Int) = 7 * W := by
  rw [build_timeline_eq startOpt today hW] at h
  obtain rfl : _ = tl := (Except.ok.injEq _ _).mp h
  refine ⟨rfl, rfl, ?_⟩
  simp only [List.length_map, List.length_range]
  omega

lemma timeline_days_getElem {startOpt : Option Int} {today : Int} {W : Int}
    {tl : Timeline} (hW : 0 < W)
    (h : build_timeline startOpt today W = .ok tl) {i : Nat}
    (hi : i < tl.days.length) : tl.days[i]? = some (tl.start + i) := by
  rw [build_timeline_eq startOpt today hW] at h
  obtain rfl : _ = tl := (Except.ok.injEq _ _).mp h
  simp only [List.length_map, List.length_range] at hi
  simp [List.getElem?_map, List.getElem?_range, hi]

/-! ### Helper lemmas: the overlap query -/

lemma queryAssigns_perm (tl : Timeline) (l : List Assign) :
    (queryAssigns tl l).Perm (l.filter (assignFilter tl)) :=
  List.perm_insertionSort assignLe _

lemma mem_queryAssigns {tl : Timeline} {l : List Assign} {a : Assign} :
    a ∈ queryAssigns tl l ↔
      a ∈ l ∧ tl.start ≤ a.end_date ∧ a.start_date ≤ tl.end_ := by
  rw [(queryAssigns_perm tl l).mem_iff, List.mem_filter]
  unfold assignFilter
  simp

lemma sorted_queryAssigns (tl : Timeline) (l : List Assign) :
    (queryAssigns tl l).Sorted assignLe :=
  List.sorted_insertionSort assignLe _

lemma count_queryAssigns (tl : Timeline) (l : List Assign) (a : Assign) :
    (queryAssigns tl l).count a = (l.filter (assignFilter tl)).count a :=
  (queryAssigns_perm tl l).count_eq a

/-- A list sorted by `(start_date, id)` with pairwise-distinct ids is
determined by its multiset of elements. -/
lemma eq_of_sorted_of_perm_ids :
    ∀ {l₁ l₂ : List Assign}, l₁.Perm l₂ → l₁.Sorted assignLe →
      l₂.Sorted assignLe → (l₁.map (fun a => a.id)).Nodup → l₁ = l₂ := by
  intro l₁
  induction l₁ with
  | nil =>
    intro l₂ hp _ _ _
    exact hp.nil_eq
  | cons x t ih =>
    intro l₂ hp hs₁ hs₂ hnd
    have hx : x ∈ l₂ := hp.subset (List.mem_cons_self x t)
    cases l₂ with
    | nil => cases hx
    | cons y t₂ =>
      have hxy : x = y := by
        by_contra hne
        have hyt : y ∈ t := by
          have : y ∈ x :: t := hp.symm.subset (List.mem_cons_self y t₂)
          rcases List.mem_cons.mp this with h | h
          · exact absurd h.symm hne
          · exact h
        have hxt2 : x ∈ t₂ := by
          rcases List.mem_cons.mp hx with h | h
          · exact absurd h hne
          · exact h
        have h₁ : assignLe x y := List.rel_of_sorted_cons hs₁ y hyt
        have h₂ : assignLe y x := List.rel_of_sorted_cons hs₂ x hxt2
        have hid : x.id = y.id := by
          unfold assignLe at h₁ h₂
          omega
        have hmem : x.id ∈ t.map (fun a => a.id) := by
          rw [hid]
          exact List.mem_map_of_mem _ hyt
        exact (List.nodup_cons.mp hnd).1 hmem
      subst hxy
      have hpt : t.Perm t₂ := hp.cons_inv
      rw [ih hpt hs₁.of_cons hs₂.of_cons (List.nodup_cons.mp hnd).2]

lemma queryAssigns_perm_eq {tl : Timeline} {l₁ l₂ : List Assign}
    (hp : l₁.Perm l₂) (hnd : (l₁.map (fun a => a.id)).Nodup) :
    queryAssigns tl l₁ = queryAssigns tl l₂ := by
  have hq : (queryAssigns tl l₁).Perm (queryAssigns tl l₂) :=
    ((queryAssigns_perm tl l₁).trans (hp.filter _)).trans
      (queryAssigns_perm tl l₂).symm
  have hsub : ((l₁.filter (assignFilter tl)).map (fun a => a.id)).Nodup :=
    ((List.filter_sublist l₁).map _).nodup hnd
  have hndq : ((queryAssigns tl l₁).map (fun a => a.id)).Nodup :=
    (((queryAssigns_perm tl l₁).map _).nodup_iff).mpr hsub
  exact eq_of_sorted_of_perm_ids hq (sorted_queryAssigns tl l₁)
    (sorted_queryAssigns tl l₂) hndq

/-! ### Helper lemmas: the grouped map -/

lemma lookupG_cons (p : Nat × List RenderedAssign)
    (g : List (Nat × List RenderedAssign)) (k : Nat) :
    lookupG (p :: g) k = if p.1 = k then some p.2 else lookupG g k := by
  unfold lookupG
  by_cases h : p.1 = k
  · rw [List.find?_cons_of_pos _ (by simpa using h), if_pos h]
    rfl
  · rw [List.find?_cons_of_neg _ (by simpa using h), if_neg h]

lemma hasKey_cons (p : Nat × List RenderedAssign)
    (g : List (Nat × List RenderedAssign)) (k : Nat) :
    hasKey (p :: g) k = ((p.1 == k) || hasKey g k) := by
  unfold hasKey
  rw [List.any_cons]

lemma hasKey_iff {g : List (Nat × List RenderedAssign)} {k : Nat} :
    hasKey g k = true ↔ k ∈ g.map Prod.fst := by
  induction g with
  | nil => simp [hasKey]
  | cons p g ih =>
    rw [hasKey_cons]
    by_cases h : p.1 = k
    · simp [h]
    · simp only [Bool.or_eq_true, beq_iff_eq, h, false_or, List.map_cons,
        List.mem_cons]
      rw [ih]
      constructor
      · exact fun hk => Or.inr hk
      · rintro (hk | hk)
        · exact absurd hk.symm h
        · exact hk

lemma lookupG_isSome_iff {g : List (Nat × List RenderedAssign)} {k : Nat} :
    (lookupG g k).isSome = true ↔ k ∈ g.map Prod.fst := by
  induction g with
  | nil => simp [lookupG]
  | cons p g ih =>
    rw [lookupG_cons]
    by_cases h : p.1 = k
    · simp [h]
    · rw [if_neg h, ih]
      simp only [List.map_cons, List.mem_cons]
      constructor
      · exact fun hk => Or.inr hk
      · rintro (hk | hk)
        · exact absurd hk.symm h
        · exact hk

lemma appendAt_cons (p : Nat × List RenderedAssign)
    (g : List (Nat × List RenderedAssign)) (j : Nat) (v : RenderedAssign) :
    appendAt (p :: g) j v =
      (if p.1 = j then (p.1, p.2 ++ [v]) else p) :: appendAt g j v := by
  unfold appendAt
  rw [List.map_cons]

lemma lookupG_appendAt (g : List (Nat × List RenderedAssign)) (j k : Nat)
    (v : RenderedAssign) :
    lookupG (appendAt g j v) k =
      if k = j then (lookupG g k).map (fun b => b ++ [v])
      else lookupG g k := by
  induction g with
  | nil =>
    unfold lookupG appendAt
    by_cases h : k = j <;> simp [h]
  | cons p g ih =>
    rw [appendAt_cons]
    by_cases hpj : p.1 = j
    · rw [if_pos hpj, lookupG_cons]
      by_cases hpk : p.1 = k
      · have hkj : k = j := hpk ▸ hpj
        rw [if_pos hpk, if_pos hkj, lookupG_cons, if_pos hpk]
        rfl
      · have hkj : ¬ k = j := fun h => hpk (hpj ▸ h ▸ rfl)
        rw [if_neg hpk, ih, if_neg hkj, if_neg hkj, lookupG_cons, if_neg hpk]
    · rw [if_neg hpj, lookupG_cons]
      by_cases hpk : p.1 = k
      · have hkj : ¬ k = j := fun h => hpj (hpk.symm ▸ h ▸ rfl)
        rw [if_pos hpk, if_neg hkj, lookupG_cons, if_pos hpk]
      · rw [if_neg hpk, ih, lookupG_cons, if_neg hpk]

lemma appendAt_fst (g : List (Nat × List RenderedAssign)) (j : Nat)
    (v : RenderedAssign) : (appendAt g j v).map Prod.fst = g.map Prod.fst := by
  unfold appendAt
  rw [List.map_map]
  apply List.map_congr_left
  intro p _
  by_cases h : p.1 = j <;> simp [h]

lemma bucketize_fst (tl : Timeline) :
    ∀ (items : List Assign) (g : List (Nat × List RenderedAssign)),
      (bucketize tl g items).map Prod.fst = g.map Prod.fst := by
  intro items
  induction items with
  | nil => intro g; rfl
  | cons it rest ih =>
    intro g
    unfold bucketize at *
    rw [List.foldl_cons]
    by_cases h : hasKey g it.staff_id
    · rw [if_pos h, ih, appendAt_fst]
    · rw [if_neg h, ih]

lemma bucketize_lookup (tl : Timeline) :
    ∀ (items : List Assign) (g : List (Nat × List RenderedAssign)) (k : Nat)
      (b : List RenderedAssign), lookupG g k = some b →
      lookupG (bucketize tl g items) k =
        some (b ++ (items.filter (fun it => it.staff_id == k)).map (clampView tl)) := by
  intro items
  induction items with
  | nil =>
    intro g k b hb
    simpa [bucketize] using hb
  | cons it rest ih =>
    intro g k b hb
    unfold bucketize at *
    rw [List.foldl_cons]
    by_cases hk : it.staff_id = k
    · have hkey : hasKey g it.staff_id = true := by
        rw [hasKey_iff, hk, ← lookupG_isSome_iff, hb]
        rfl
      rw [if_pos hkey]
      have hb' : lookupG (appendAt g it.staff_id (clampView tl it)) k =
          some (b ++ [clampView tl it]) := by
        rw [lookupG_appendAt, if_pos hk.symm, hb]
        rfl
      rw [ih _ k _ hb']
      simp [hk, List.append_assoc]
    · have hstep : ∀ g1 : List (Nat × List RenderedAssign), lookupG g1 k = some b →
          lookupG (List.foldl (fun g it =>
            if hasKey g it.staff_id = true then appendAt g it.staff_id (clampView tl it)
            else g) g1 rest) k =
          some (b ++ (rest.filter (fun it => it.staff_id == k)).map (clampView tl)) :=
        fun g1 h1 => ih g1 k b h1
      have hfil : (it.staff_id == k) = false := by simpa using hk
      rw [List.filter_cons, hfil]
      by_cases hkey : hasKey g it.staff_id = true
      · rw [if_pos hkey]
        apply hstep
        rw [lookupG_appendAt, if_neg (fun h => hk h.symm)]
        exact hb
      · rw [if_neg hkey]
        exact hstep g hb

lemma groupedInit_fst (staff : List Staff) :
    (groupedInit staff).map Prod.fst = staff.map (fun s => s.id) := by
  unfold groupedInit
  rw [List.map_map]
  rfl

lemma lookupG_groupedInit {staff : List Staff} {k : Nat}
    (h : k ∈ staff.map (fun s => s.id)) :
    lookupG (groupedInit staff) k = some [] := by
  induction staff with
  | nil => cases h
  | cons s staff ih =>
    have : groupedInit (s :: staff) = (s.id, []) :: groupedInit staff := rfl
    rw [this, lookupG_cons]
    by_cases hs : s.id = k
    · rw [if_pos hs]
    · rw [if_neg hs]
      apply ih
      rcases List.mem_cons.mp h with h1 | h1
      · exact absurd h1.symm hs
      · exact h1

lemma lookupG_none {g : List (Nat × List RenderedAssign)} {k : Nat}
    (h : k ∉ g.map Prod.fst) : lookupG g k = none := by
  cases hl : lookupG g k with
  | none => rfl
  | some b =>
    exfalso
    apply h
    rw [← lookupG_isSome_iff, hl]
    rfl

/-- An item whose staff id is not a key of the grouped map is silently
skipped by the bucketing loop. -/
lemma bucketize_skip (tl : Timeline) {A : Assign} :
    ∀ (l₁ l₂ : List Assign) (g : List (Nat × List RenderedAssign)),
      A.staff_id ∉ g.map Prod.fst →
      bucketize tl g (l₁ ++ A :: l₂) = bucketize tl g (l₁ ++ l₂) := by
  intro l₁
  induction l₁ with
  | nil =>
    intro l₂ g hA
    have hkey : ¬ hasKey g A.staff_id = true := by
      rw [hasKey_iff]
      exact hA
    unfold bucketize
    rw [List.nil_append, List.nil_append, List.foldl_cons, if_neg hkey]
  | cons it l₁ ih =>
    intro l₂ g hA
    unfold bucketize at *
    rw [List.cons_append, List.foldl_cons, List.cons_append, List.foldl_cons]
    by_cases hkey : hasKey g it.staff_id = true
    · rw [if_pos hkey]
      exact ih l₂ _ (by rwa [appendAt_fst])
    · rw [if_neg hkey]
      exact ih l₂ g hA

/-! ### Helper lemmas: the gantt route -/

lemma ensure_db_seed_assigns (db : DBState) :
    (ensure_db_seed db).assigns = db.assigns := by
  unfold ensure_db_seed
  split <;> rfl

lemma gantt_ok_inv {db : DBState} {qs_start : Option Int} {weeks today : Int}
    {db2 : DBState} {view : GanttView}
    (h : gantt db qs_start weeks today = .ok (db2, view)) :
    db2 = ensure_db_seed db ∧
    build_timeline (some (qs_start.getD (monday_of today))) today weeks =
      .ok view.tl ∧
    view.staff_list = List.insertionSort staffLe (ensure_db_seed db).staff ∧
    view.grouped = bucketize view.tl (groupedInit view.staff_list)
      (queryAssigns view.tl (ensure_db_seed db).assigns) ∧
    view.weeks = weeks := by
  unfold gantt at h
  dsimp only at h
  generalize hbt : build_timeline (some (qs_start.getD (monday_of today)))
      today weeks = r at h
  cases r with
  | error e => cases h
  | ok tl =>
    dsimp only at h
    obtain ⟨h1, h2⟩ := Prod.mk.injEq .. ▸ (Except.ok.injEq _ _).mp h
    subst h1
    subst h2
    exact ⟨rfl, rfl, rfl, rfl, rfl⟩

lemma gantt_ok_of_pos (db : DBState) (qs_start : Option Int) {weeks : Int}
    (today : Int) (hW : 0 < weeks) :
    ∃ p, gantt db qs_start weeks today = .ok p := by
  unfold gantt
  dsimp only
  rw [build_timeline_eq _ _ hW]
  exact ⟨_, rfl⟩

/-! ### Claims -/

/-- C3: for every requested start date D (or today when absent) and
positive week count W, `build_timeline` returns a Timeline whose start
is the Monday on or before D (a Monday, and at most D), whose days are
the consecutive sequence start, start+1, ..., start+7W-1 (exactly 7W
days), and whose end equals the last element of days. -/
theorem c3_build_timeline_shape (D today W : Int) (hW : 0 < W) :
    ∃ tl, build_timeline (some D) today W = .ok tl ∧
      tl.start = monday_of D ∧
      weekday tl.start = 0 ∧
      tl.start ≤ D ∧
      (tl.days.length : Int) = 7 * W ∧
      (∀ i : Nat, i < tl.days.length → tl.days[i]? = some (tl.start + i)) ∧
      tl.days.getLast? = some tl.end_ ∧
      build_timeline none today W = build_timeline (some today) today W := by
  refine ⟨_, build_timeline_eq (some D) today hW, rfl, weekday_monday_of D,
    monday_of_le D, ?_, ?_, ?_, rfl⟩
  · simp only [List.length_map, List.length_range]
    omega
  · intro i hi
    simp only [List.length_map, List.length_range] at hi
    simp [List.getElem?_map, List.getElem?_range, hi]
  · rw [getLast?_range_map _ (by omega)]
    simp only [Option.some.injEq]
    omega

theorem c3_build_timeline_shape_witness :
    ∃ tl, build_timeline (some (toOrdinal 2024 3 7)) (toOrdinal 2024 3 7) 4 =
        .ok tl ∧
      tl.start = monday_of (toOrdinal 2024 3 7) ∧
      weekday tl.start = 0 ∧
      tl.start ≤ toOrdinal 2024 3 7 ∧
      (tl.days.length : Int) = 7 * 4 ∧
      (∀ i : Nat, i < tl.days.length → tl.days[i]? = some (tl.start + i)) ∧
      tl.days.getLast? = some tl.end_ ∧
      build_timeline none (toOrdinal 2024 3 7) 4 =
        build_timeline (some (toOrdinal 2024 3 7)) (toOrdinal 2024 3 7) 4 :=
  c3_build_timeline_shape (toOrdinal 2024 3 7) (toOrdinal 2024 3 7) 4
    (by decide)

/-- C8 (failing input): with a non-positive week count the day list is
empty and `build_timeline` fails with the uncaught `IndexError` from
`days[-1]`; it is neither rejected with a structured error nor clamped
to one week. -/
theorem c8_weeks_nonpositive_index_error :
    build_timeline (some (toOrdinal 2024 1 1)) (toOrdinal 2024 1 1) 0 =
      .error PyError.indexError ∧
    build_timeline none (toOrdinal 2024 1 1) (-3) =
      .error PyError.indexError := by
  constructor <;> rfl

/-- C9: with weeks = 2 and requested start 2024-01-01 (a Monday), the
timeline has the 14 days 2024-01-01 .. 2024-01-14; an assignment
2024-01-10 .. 2024-01-20 is clamped to 2024-01-10 .. 2024-01-14 and
laid out at column 10 with span 5; feeding the template the unclamped
dates (raw span 11) is clipped to the same span 5. -/
theorem c9_two_week_example :
    build_timeline (some (toOrdinal 2024 1 1)) (toOrdinal 2024 1 1) 2 =
      .ok { start := toOrdinal 2024 1 1, end_ := toOrdinal 2024 1 14,
            days := (List.range 14).map
              (fun i : Nat => toOrdinal 2024 1 1 + (i : Int)) } ∧
    clampView
        { start := toOrdinal 2024 1 1, end_ := toOrdinal 2024 1 14,
          days := (List.range 14).map
            (fun i : Nat => toOrdinal 2024 1 1 + (i : Int)) }
        { id := 1, title := "T", staff_id := 1,
          start_date := toOrdinal 2024 1 10, end_date := toOrdinal 2024 1 20,
          memo := none } =
      { title := "T", start_date := toOrdinal 2024 1 10,
        end_date := toOrdinal 2024 1 14, memo := "" } ∧
    barOf 14 (toOrdinal 2024 1 1)
        { title := "T", start_date := toOrdinal 2024 1 10,
          end_date := toOrdinal 2024 1 14, memo := "" } = (10, 5) ∧
    (toOrdinal 2024 1 20 - toOrdinal 2024 1 10) + 1 = 11 ∧
    barOf 14 (toOrdinal 2024 1 1)
        { title := "T", start_date := toOrdinal 2024 1 10,
          end_date := toOrdinal 2024 1 20, memo := "" } = (10, 5) := by
  refine ⟨by decide, by decide, by decide, by decide, by decide⟩

/-- C2: rendering a window never mutates the assignment store: a
successful `gantt` request returns a database state whose assign table
is exactly the one it was given, for every window, so re-reading any
stored assignment yields the persisted dates. -/
theorem c2_render_never_mutates_store (db : DBState) (qs_start : Option Int)
    (weeks today : Int) (db2 : DBState) (view : GanttView)
    (h : gantt db qs_start weeks today = .ok (db2, view)) :
    db2.assigns = db.assigns ∧
    ∀ a ∈ db.assigns, a ∈ db2.assigns := by
  obtain ⟨h1, -⟩ := gantt_ok_inv h
  subst h1
  rw [ensure_db_seed_assigns]
  exact ⟨rfl, fun a ha => ha⟩

theorem c2_render_never_mutates_store_witness :
    ({ staff := [{ id := 1, name := "A", color := none }],
       assigns := [{ id := 1, title := "Very Long Task", staff_id := 1,
                     start_date := toOrdinal 2026 10 12 - 30,
                     end_date := toOrdinal 2026 10 12 + 30,
                     memo := some "long" }],
       next_assign_id := 2 } : DBState).assigns =
      ({ staff := [{ id := 1, name := "A", color := none }],
         assigns := [{ id := 1, title := "Very Long Task", staff_id := 1,
                       start_date := toOrdinal 2026 10 12 - 30,
                       end_date := toOrdinal 2026 10 12 + 30,
                       memo := some "long" }],
         next_assign_id := 2 } : DBState).assigns ∧
    ∀ a ∈ ({ staff := [{ id := 1, name := "A", color := none }],
             assigns := [{ id := 1, title := "Very Long Task", staff_id := 1,
                           start_date := toOrdinal 2026 10 12 - 30,
                           end_date := toOrdinal 2026 10 12 + 30,
                           memo := some "long" }],
             next_assign_id := 2 } : DBState).assigns,
      a ∈ ({ staff := [{ id := 1, name := "A", color := none }],
             assigns := [{ id := 1, title := "Very Long Task", staff_id := 1,
                           start_date := toOrdinal 2026 10 12 - 30,
                           end_date := toOrdinal 2026 10 12 + 30,
                           memo := some "long" }],
             next_assign_id := 2 } : DBState).assigns :=
  c2_render_never_mutates_store
    { staff := [{ id := 1, name := "A", color := none }],
      assigns := [{ id := 1, title := "Very Long Task", staff_id := 1,
                    start_date := toOrdinal 2026 10 12 - 30,
                    end_date := toOrdinal 2026 10 12 + 30,
                    memo := some "long" }],
      next_assign_id := 2 }
    none 2 (toOrdinal 2026 10 12)
    { staff := [{ id := 1, name := "A", color := none }],
      assigns := [{ id := 1, title := "Very Long Task", staff_id := 1,
                    start_date := toOrdinal 2026 10 12 - 30,
                    end_date := toOrdinal 2026 10 12 + 30,
                    memo := some "long" }],
      next_assign_id := 2 }
    { tl := { start := toOrdinal 2026 10 12,
              end_ := toOrdinal 2026 10 12 + 13,
              days := (List.range 14).map
                (fun i : Nat => toOrdinal 2026 10 12 + (i : Int)) }
      staff_list := [{ id := 1, name := "A", color := none }]
      grouped := [(1, [{ title := "Very Long Task",
                         start_date := toOrdinal 2026 10 12,
                         end_date := toOrdinal 2026 10 12 + 13,
                         memo := "long" }])]
      weeks := 2 }
    (by decide)

/-- C6: `new_assign` swaps a reversed date range before persisting, so
the stored record always satisfies start_date <= end_date; when the
input is already ordered it is stored unchanged, and the
end-before-start invariant of the store is preserved. -/
theorem c6_new_assign_swaps_reversed_range (db : DBState) (title : String)
    (sid : Nat) (s e : Int) (memo : String) :
    ∃ rec : Assign,
      (new_assign db title sid s e memo).assigns = db.assigns ++ [rec] ∧
      rec.start_date = min s e ∧
      rec.end_date = max s e ∧
      rec.start_date ≤ rec.end_date ∧
      (e < s → rec.start_date = e ∧ rec.end_date = s) ∧
      (s ≤ e → rec.start_date = s ∧ rec.end_date = e) ∧
      ((∀ a ∈ db.assigns, a.start_date ≤ a.end_date) →
        ∀ a ∈ (new_assign db title sid s e memo).assigns,
          a.start_date ≤ a.end_date) := by
  unfold new_assign
  dsimp only
  rw [ensure_db_seed_assigns]
  by_cases h : e < s
  · rw [if_pos h]
    refine ⟨_, rfl, by dsimp only; omega, by dsimp only; omega,
      by dsimp only; omega, fun _ => ⟨rfl, rfl⟩, fun h2 => absurd h2 (by omega),
      ?_⟩
    intro hinv a ha
    rcases List.mem_append.mp ha with ha | ha
    · exact hinv a ha
    · rcases List.mem_singleton.mp ha with rfl
      dsimp only
      omega
  · rw [if_neg h]
    refine ⟨_, rfl, by dsimp only; omega, by dsimp only; omega,
      by dsimp only; omega, fun h2 => absurd h2 h, fun _ => ⟨rfl, rfl⟩, ?_⟩
    intro hinv a ha
    rcases List.mem_append.mp ha with ha | ha
    · exact hinv a ha
    · rcases List.mem_singleton.mp ha with rfl
      dsimp only
      omega

theorem c6_new_assign_swaps_reversed_range_witness :
    ∃ rec : Assign,
      (new_assign
          { staff := [{ id := 1, name := "A", color := none }],
            assigns := [], next_assign_id := 1 }
          "Swap Dates" 1 (toOrdinal 2026 10 12 + 5) (toOrdinal 2026 10 12 + 2)
          "reversed dates").assigns =
        ({ staff := [{ id := 1, name := "A", color := none }],
           assigns := [], next_assign_id := 1 } : DBState).assigns ++ [rec] ∧
      rec.start_date = min (toOrdinal 2026 10 12 + 5) (toOrdinal 2026 10 12 + 2) ∧
      rec.end_date = max (toOrdinal 2026 10 12 + 5) (toOrdinal 2026 10 12 + 2) ∧
      rec.start_date ≤ rec.end_date ∧
      (toOrdinal 2026 10 12 + 2 < toOrdinal 2026 10 12 + 5 →
        rec.start_date = toOrdinal 2026 10 12 + 2 ∧
        rec.end_date = toOrdinal 2026 10 12 + 5) ∧
      (toOrdinal 2026 10 12 + 5 ≤ toOrdinal 2026 10 12 + 2 →
        rec.start_date = toOrdinal 2026 10 12 + 5 ∧
        rec.end_date = toOrdinal 2026 10 12 + 2) ∧
      ((∀ a ∈ ({ staff := [{ id := 1, name := "A", color := none }],
                 assigns := [], next_assign_id := 1 } : DBState).assigns,
          a.start_date ≤ a.end_date) →
        ∀ a ∈ (new_assign
            { staff := [{ id := 1, name := "A", color := none }],
              assigns := [], next_assign_id := 1 }
            "Swap Dates" 1 (toOrdinal 2026 10 12 + 5)
            (toOrdinal 2026 10 12 + 2) "reversed dates").assigns,
          a.start_date ≤ a.end_date) :=
  c6_new_assign_swaps_reversed_range
    { staff := [{ id := 1, name := "A", color := none }],
      assigns := [], next_assign_id := 1 }
    "Swap Dates" 1 (toOrdinal 2026 10 12 + 5) (toOrdinal 2026 10 12 + 2)
    "reversed dates"

/-- C4: for an assignment overlapping a built timeline, the rendered
view carries clamped_start = max(start, tl.start) and clamped_end =
min(end, tl.end); the template lays it out at column
(clamped_start - tl.start) + 1 and span
min(clamped_end - clamped_start + 1, len - column + 1), so that
column + span - 1 never exceeds the day count. -/
theorem c4_layout_clamper_formulas (startOpt : Option Int) (today W : Int)
    (tl : Timeline) (hW : 0 < W)
    (htl : build_timeline startOpt today W = .ok tl) (A : Assign)
    (_hov1 : tl.start ≤ A.end_date) (hov2 : A.start_date ≤ tl.end_) :
    (clampView tl A).start_date = max A.start_date tl.start ∧
    (clampView tl A).end_date = min A.end_date tl.end_ ∧
    (barOf (tl.days.length : Int) tl.start (clampView tl A)).1 =
      (max A.start_date tl.start - tl.start) + 1 ∧
    (barOf (tl.days.length : Int) tl.start (clampView tl A)).2 =
      min ((min A.end_date tl.end_ - max A.start_date tl.start) + 1)
        ((tl.days.length : Int) - ((max A.start_date tl.start - tl.start) + 1) + 1) ∧
    (barOf (tl.days.length : Int) tl.start (clampView tl A)).1 +
        (barOf (tl.days.length : Int) tl.start (clampView tl A)).2 - 1 ≤
      (tl.days.length : Int) := by
  obtain ⟨hs, he, hlen⟩ := timeline_facts hW htl
  unfold barOf clampView
  dsimp only
  refine ⟨rfl, rfl, ?_, ?_, ?_⟩ <;> (split_ifs <;> omega)

theorem c4_layout_clamper_formulas_witness :
    (barOf (sampleTimeline.days.length : Int) sampleTimeline.start
          (clampView sampleTimeline sampleAssign)).1 +
        (barOf (sampleTimeline.days.length : Int) sampleTimeline.start
          (clampView sampleTimeline sampleAssign)).2 - 1 ≤
      (sampleTimeline.days.length : Int) :=
  (c4_layout_clamper_formulas (some sampleDay) sampleDay 1 sampleTimeline
    (by decide) (by decide) sampleAssign (by decide) (by decide)).2.2.2.2

/-- C5: the overlap query returns exactly the assignments with
end_date >= tl.start and start_date <= tl.end (so a single-day
assignment with start = end in range is included), sorted by ascending
start_date with ties broken by ascending id, and its result is the
same for any insertion order of the store (any permutation). -/
theorem c5_overlap_query_contract (tl : Timeline) (l₁ l₂ : List Assign)
    (hperm : l₁.Perm l₂) (hnd : (l₁.map (fun a => a.id)).Nodup) :
    (∀ a : Assign, a ∈ queryAssigns tl l₁ ↔
        a ∈ l₁ ∧ tl.start ≤ a.end_date ∧ a.start_date ≤ tl.end_) ∧
    (queryAssigns tl l₁).Sorted assignLe ∧
    (queryAssigns tl l₁).Pairwise
      (fun a b => a.start_date = b.start_date → a.id ≤ b.id) ∧
    queryAssigns tl l₁ = queryAssigns tl l₂ := by
  refine ⟨fun a => mem_queryAssigns, sorted_queryAssigns tl l₁, ?_,
    queryAssigns_perm_eq hperm hnd⟩
  refine List.Pairwise.imp ?_ (sorted_queryAssigns tl l₁)
  intro a b hab heq
  unfold assignLe at hab
  omega

theorem c5_overlap_query_contract_witness :
    queryAssigns sampleTimeline [sampleAssign, sampleAssignTie, sampleAssignEarly] =
      queryAssigns sampleTimeline [sampleAssignTie, sampleAssignEarly, sampleAssign] :=
  (c5_overlap_query_contract sampleTimeline
    [sampleAssign, sampleAssignTie, sampleAssignEarly]
    [sampleAssignTie, sampleAssignEarly, sampleAssign]
    (by decide) (by decide)).2.2.2

/-- C7: on any successful render, every staff member of the roster has
an entry in the grouped map (the empty list when none of their
assignments overlap the window), and each bucket is exactly the
clamped views of that staff's queried assignments in the overlap
query's result order. -/
theorem c7_grouping_completeness (db : DBState) (qs_start : Option Int)
    (weeks today : Int) (db2 : DBState) (view : GanttView)
    (h : gantt db qs_start weeks today = .ok (db2, view)) (s : Staff)
    (hs : s ∈ view.staff_list) :
    lookupG view.grouped s.id =
      some (((queryAssigns view.tl db2.assigns).filter
        (fun it => it.staff_id == s.id)).map (clampView view.tl)) := by
  obtain ⟨h1, -, -, hg, -⟩ := gantt_ok_inv h
  subst h1
  rw [hg, bucketize_lookup view.tl _ _ s.id []
    (lookupG_groupedInit (List.mem_map_of_mem _ hs)), List.nil_append]

theorem c7_grouping_completeness_witness :
    lookupG sampleView.grouped sampleStaffA.id =
      some (((queryAssigns sampleView.tl sampleDB.assigns).filter
        (fun it => it.staff_id == sampleStaffA.id)).map (clampView sampleView.tl)) :=
  c7_grouping_completeness sampleDB none 1 sampleDay sampleDB sampleView
    (by decide) sampleStaffA (by decide)

/-- C10: an assignment whose staff id is not in the roster is silently
dropped by the bucketing loop: removing it from the query result
leaves the grouped map unchanged, its staff id is not a key, the
grouped map's keys are exactly the roster's staff ids, and the route
still succeeds. -/
theorem c10_unrostered_assignment_omitted (tl : Timeline)
    (roster : List Staff) (A : Assign) (l₁ l₂ items : List Assign)
    (hA : A.staff_id ∉ roster.map (fun s => s.id))
    (db : DBState) (qs_start : Option Int) (weeks today : Int)
    (hW : 0 < weeks) :
    bucketize tl (groupedInit roster) (l₁ ++ A :: l₂) =
      bucketize tl (groupedInit roster) (l₁ ++ l₂) ∧
    lookupG (bucketize tl (groupedInit roster) items) A.staff_id = none ∧
    (bucketize tl (groupedInit roster) items).map Prod.fst =
      roster.map (fun s => s.id) ∧
    ∃ p, gantt db qs_start weeks today = .ok p := by
  have hkeys : A.staff_id ∉ (groupedInit roster).map Prod.fst := by
    rw [groupedInit_fst]
    exact hA
  refine ⟨bucketize_skip tl l₁ l₂ _ hkeys, ?_, ?_,
    gantt_ok_of_pos db qs_start today hW⟩
  · apply lookupG_none
    rw [bucketize_fst, groupedInit_fst]
    exact hA
  · rw [bucketize_fst, groupedInit_fst]

theorem c10_unrostered_assignment_omitted_witness :
    bucketize sampleTimeline (groupedInit [sampleStaffA])
        ([] ++ sampleUnrostered :: [sampleAssign]) =
      bucketize sampleTimeline (groupedInit [sampleStaffA])
        ([] ++ [sampleAssign]) :=
  (c10_unrostered_assignment_omitted sampleTimeline [sampleStaffA]
    sampleUnrostered [] [sampleAssign] [sampleUnrostered] (by decide)
    sampleDB none 1 sampleDay (by decide)).1

/-- C1: an assignment overlapping a built window, owned by a rostered
staff member, produces exactly one rendered view (it occurs once in
the query result and its clamped view occurs in its staff's bucket,
which is the image of the query result restricted to that staff), and
the clamped span lies inside the window: tl.start <= clamped_start <=
clamped_end <= tl.end, the 1-indexed column lies in [1, len(days)] and
the span in [1, len(days) - column + 1]. -/
theorem c1_overlap_render_invariant (startOpt : Option Int) (today W : Int)
    (tl : Timeline) (hW : 0 < W)
    (htl : build_timeline startOpt today W = .ok tl)
    (roster : List Staff) (assigns : List Assign) (A : Assign)
    (hmem : A ∈ assigns) (hnd : (assigns.map (fun a => a.id)).Nodup)
    (hroster : A.staff_id ∈ roster.map (fun s => s.id))
    (hwf : A.start_date ≤ A.end_date)
    (hov1 : tl.start ≤ A.end_date) (hov2 : A.start_date ≤ tl.end_) :
    (queryAssigns tl assigns).count A = 1 ∧
    lookupG (bucketize tl (groupedInit roster) (queryAssigns tl assigns))
        A.staff_id =
      some (((queryAssigns tl assigns).filter
        (fun it => it.staff_id == A.staff_id)).map (clampView tl)) ∧
    clampView tl A ∈ ((queryAssigns tl assigns).filter
        (fun it => it.staff_id == A.staff_id)).map (clampView tl) ∧
    tl.start ≤ (clampView tl A).start_date ∧
    (clampView tl A).start_date ≤ (clampView tl A).end_date ∧
    (clampView tl A).end_date ≤ tl.end_ ∧
    1 ≤ (barOf (tl.days.length : Int) tl.start (clampView tl A)).1 ∧
    (barOf (tl.days.length : Int) tl.start (clampView tl A)).1 ≤
      (tl.days.length : Int) ∧
    1 ≤ (barOf (tl.days.length : Int) tl.start (clampView tl A)).2 ∧
    (barOf (tl.days.length : Int) tl.start (clampView tl A)).2 ≤
      (tl.days.length : Int) -
        (barOf (tl.days.length : Int) tl.start (clampView tl A)).1 + 1 := by
  obtain ⟨hs, he, hlen⟩ := timeline_facts hW htl
  have hqmem : A ∈ queryAssigns tl assigns :=
    mem_queryAssigns.mpr ⟨hmem, hov1, hov2⟩
  refine ⟨?_, ?_, ?_, ?_, ?_, ?_, ?_, ?_, ?_, ?_⟩
  · rw [count_queryAssigns, List.count_filter
      (by unfold assignFilter; simp [hov1, hov2])]
    have h1 : 0 < assigns.count A := List.count_pos_iff.mpr hmem
    have h2 : assigns.count A ≤ 1 :=
      List.nodup_iff_count_le_one.mp hnd.of_map A
    omega
  · rw [bucketize_lookup tl _ _ A.staff_id []
      (lookupG_groupedInit hroster), List.nil_append]
  · exact List.mem_map_of_mem _ (List.mem_filter.mpr ⟨hqmem, by simp⟩)
  · unfold clampView
    dsimp only
    omega
  · unfold clampView
    dsimp only
    omega
  · unfold clampView
    dsimp only
    omega
  · unfold barOf clampView
    dsimp only
    split_ifs <;> omega
  · unfold barOf clampView
    dsimp only
    split_ifs <;> omega
  · unfold barOf clampView
    dsimp only
    split_ifs <;> omega
  · unfold barOf clampView
    dsimp only
    split_ifs <;> omega

theorem c1_overlap_render_invariant_witness :
    (queryAssigns sampleTimeline [sampleAssign]).count sampleAssign = 1 ∧
    lookupG (bucketize sampleTimeline (groupedInit [sampleStaffA])
        (queryAssigns sampleTimeline [sampleAssign]))
        sampleAssign.staff_id =
      some (((queryAssigns sampleTimeline [sampleAssign]).filter
        (fun it => it.staff_id == sampleAssign.staff_id)).map
          (clampView sampleTimeline)) ∧
    clampView sampleTimeline sampleAssign ∈
      ((queryAssigns sampleTimeline [sampleAssign]).filter
        (fun it => it.staff_id == sampleAssign.staff_id)).map
          (clampView sampleTimeline) ∧
    sampleTimeline.start ≤ (clampView sampleTimeline sampleAssign).start_date ∧
    (clampView sampleTimeline sampleAssign).start_date ≤
      (clampView sampleTimeline sampleAssign).end_date ∧
    (clampView sampleTimeline sampleAssign).end_date ≤ sampleTimeline.end_ ∧
    1 ≤ (barOf (sampleTimeline.days.length : Int) sampleTimeline.start
      (clampView sampleTimeline sampleAssign)).1 ∧
    (barOf (sampleTimeline.days.length : Int) sampleTimeline.start
      (clampView sampleTimeline sampleAssign)).1 ≤
      (sampleTimeline.days.length : Int) ∧
    1 ≤ (barOf (sampleTimeline.days.length : Int) sampleTimeline.start
      (clampView sampleTimeline sampleAssign)).2 ∧
    (barOf (sampleTimeline.days.length : Int) sampleTimeline.start
      (clampView sampleTimeline sampleAssign)).2 ≤
      (sampleTimeline.days.length : Int) -
        (barOf (sampleTimeline.days.length : Int) sampleTimeline.start
          (clampView sampleTimeline sampleAssign)).1 + 1 :=
  c1_overlap_render_invariant (some sampleDay) sampleDay 1 sampleTimeline
    (by decide) (by decide) [sampleStaffA] [sampleAssign] sampleAssign
    (by decide) (by decide) (by decide) (by decide) (by decide) (by decide)

end GanttApp
